import Mathlib

/-!
Shallow embedding of the core of the `strokers` repository, a driver that
plays positional timelines ("funscripts") on a multi-axis motorised device.

The embedding covers:
* the axis motion limiter (`AxisLimiter`, from
  `strokers_for_mpv/src/playstate.rs`): position estimation, speed/range
  clamping, and limit updates (`update_limits` from
  `strokers_for_mpv/src/playthread.rs`);
* the funscript playback tracker (`FunscriptPlaystate`, from
  `strokers_funscript/src/playstate.rs`), including a faithful model of
  Rust's `slice::binary_search_by_key` loop;
* funscript normalisation (`normalised_from_funscript` and
  `Funscript.fixup`, from `strokers_funscript/src/processing.rs` and
  `schema.rs`);
* `Movement::new` (from `strokers_core/src/lib.rs`) with an explicit model
  of the IEEE-754 comparison behaviour of non-finite `f32` values;
* the T-Code command encoder `movement_to_tcode` (from
  `strokers_device_tcode/src/tcode.rs`);
* the per-axis coordinator steps `AxisPlaystate::tick` / `::seek` and the
  pause gate of the `playtask` event loop.

Real-valued (`f32`/`f64`) arithmetic is modelled over `ℚ` (exact
arithmetic; floating-point rounding is out of scope), `u32` values as `ℕ`
with explicit wrap-around `% 2^32` where the source can overflow, and
`Instant` as a rational number of seconds.
-/

namespace Strokers

/-- Modulus of `u32` arithmetic: `2^32`. -/
def u32Mod : ℕ := 4294967296

/-- Wrapping `u32` subtraction `x - y` (release-mode Rust semantics);
for `x, y < 2^32` this equals `(x + 2^32 - y) % 2^32`. -/
def wrapSub (x y : ℕ) : ℕ := (x + u32Mod - y) % u32Mod

/-! ## Axis motion limiter

From `strokers_for_mpv/src/playstate.rs`, `struct AxisLimiter`.
`Instant`s are rationals (seconds); positions and speeds are rationals.
-/

/-- The `AxisLimiter` struct: speed limit (full scale per second), the
last-commanded motion (start/target position and time) and the travel
range `[min, max]`. -/
structure AxisLimiter where
  speed_limit : ℚ
  last_command_start_time : ℚ
  last_command_start : ℚ
  last_command_target_time : ℚ
  last_command_target : ℚ
  min : ℚ
  max : ℚ
deriving DecidableEq

namespace AxisLimiter

/-- `AxisLimiter::estimate_current_position`: estimate the axis position
at instant `now` by extrapolating the last commanded motion. -/
def estimate_current_position (l : AxisLimiter) (now : ℚ) : ℚ :=
  if l.last_command_target_time < now then
    l.last_command_target
  else if l.last_command_start_time < now then
    let proportion_complete :=
      (now - l.last_command_start_time) /
        (l.last_command_target_time - l.last_command_start_time)
    l.last_command_start +
      (l.last_command_target - l.last_command_start) * proportion_complete
  else
    l.last_command_start

/-- `AxisLimiter::limit_command`: remap `target` into `[min, max]` and
clamp the implied speed to `speed_limit`, keeping the original duration.
The duration is in milliseconds (`u32`); the implied speed divides by
`max(duration, 1) * 0.001` seconds as in the source. -/
def limit_command (l : AxisLimiter) (now : ℚ) (target : ℚ)
    (duration_millis : ℕ) : ℚ × ℕ :=
  let cur_pos := l.estimate_current_position now
  let target := l.min + (l.max - l.min) * target
  let delta := target - cur_pos
  let speed_abs := |delta| / ((Nat.max duration_millis 1 : ℚ) * (1 / 1000))
  if speed_abs < l.speed_limit then
    (target, duration_millis)
  else
    let proposed_delta := delta * (l.speed_limit / speed_abs)
    (cur_pos + proposed_delta, duration_millis)

/-- `AxisLimiter::notify_commanded`: record the just-dispatched motion as
the new last-commanded motion. -/
def notify_commanded (l : AxisLimiter) (now : ℚ) (target : ℚ)
    (duration_millis : ℕ) : AxisLimiter :=
  { l with
    last_command_start := l.estimate_current_position now
    last_command_start_time := now
    last_command_target := target
    last_command_target_time := now + (duration_millis : ℚ) / 1000 }

/-- `AxisLimiter::new`: fresh limiter assuming the axis rests at `0.5`. -/
def new (speed_limit mn mx : ℚ) (now : ℚ) : AxisLimiter :=
  { speed_limit := speed_limit
    last_command_start_time := now
    last_command_start := 1 / 2
    last_command_target_time := now
    last_command_target := 1 / 2
    min := mn
    max := mx }

end AxisLimiter

/-! ## Funscript playback tracker

From `strokers_funscript/src/playstate.rs`. Times are `u32` milliseconds,
modelled as `ℕ` with explicit `% 2^32` where the source wraps.
-/

/-- A normalised timeline data point (`NormalisedAction`): time offset in
milliseconds (`u32`) and normalised position. -/
structure NormalisedAction where
  «at» : ℕ
  norm_pos : ℚ
deriving DecidableEq

/-- Rust's `slice::binary_search_by_key` loop (over the projected list of
`u32` keys), with explicit fuel standing in for the `while` loop. Any fuel
at least `right - left` is enough: each iteration shrinks the window.
On `Ok(idx)` the element at `idx` equals the key (an arbitrary match, not
necessarily the first); on `Err(idx)`, `idx` is the insertion point. -/
def rustBinarySearchGo (key : ℕ) (ats : List ℕ) :
    ℕ → ℕ → ℕ → Except ℕ ℕ
  | 0, left, _right => .error left
  | fuel + 1, left, right =>
    if left < right then
      let size := right - left
      let mid := left + size / 2
      let a := ats.getD mid 0
      if a < key then rustBinarySearchGo key ats fuel (mid + 1) right
      else if key < a then rustBinarySearchGo key ats fuel left mid
      else .ok mid
    else .error left

/-- `slice::binary_search_by_key` over the whole list. -/
def rustBinarySearch (key : ℕ) (ats : List ℕ) : Except ℕ ℕ :=
  rustBinarySearchGo key ats ats.length 0 ats.length

/-- The `match { Ok(idx) => idx, Err(idx) => idx }` applied to the search
result in `FunscriptPlaystate::seek`. -/
def bsIndex : Except ℕ ℕ → ℕ
  | .ok i => i
  | .error i => i

/-- The `FunscriptPlaystate` struct: the shared action list, the cursor
`next_index` (may run past the end) and the pending due time. -/
structure FunscriptPlaystate where
  normalised_actions : List NormalisedAction
  next_index : ℕ
  next_tick_at : Option ℕ
deriving DecidableEq

namespace FunscriptPlaystate

/-- The list of action timestamps, the keys of the binary search. -/
def ats (s : FunscriptPlaystate) : List ℕ :=
  s.normalised_actions.map (fun a => a.«at»)

/-- `FunscriptPlaystate::new`. -/
def new (normalised_actions : List NormalisedAction) : FunscriptPlaystate :=
  { normalised_actions := normalised_actions
    next_index := 0
    next_tick_at := some 0 }

/-- `FunscriptPlaystate::seek`: set the pending due time to `now` and
relocate the cursor by binary search for the key `time_milliseconds + 1`
(which, being a `u32` addition, wraps at `2^32`). -/
def seek (s : FunscriptPlaystate) (time_milliseconds : ℕ) :
    FunscriptPlaystate :=
  { s with
    next_tick_at := some time_milliseconds
    next_index :=
      bsIndex (rustBinarySearch ((time_milliseconds + 1) % u32Mod) s.ats) }

/-- In `FunscriptPlaystate::seek`, the debug-logging block computes
`idx_1 = idx_new - 1` on `usize`. This underflows exactly when the binary
search relocated the cursor to index 0. -/
def seekDebugIndexUnderflows (s : FunscriptPlaystate)
    (time_milliseconds : ℕ) : Prop :=
  bsIndex (rustBinarySearch ((time_milliseconds + 1) % u32Mod) s.ats) = 0

instance (s : FunscriptPlaystate) (t : ℕ) :
    Decidable (seekDebugIndexUnderflows s t) := by
  unfold seekDebugIndexUnderflows; infer_instance

/-- `FunscriptPlaystate::tick`: returns the due action (if any) together
with the updated state. On a hit, the cursor advances and the pending due
time becomes the returned action's own timestamp. -/
def tick (s : FunscriptPlaystate) (time_milliseconds : ℕ) :
    Option NormalisedAction × FunscriptPlaystate :=
  match s.next_tick_at with
  | none => (none, s)
  | some next_tick_at =>
    if time_milliseconds < next_tick_at then
      (none, s)
    else if s.normalised_actions.length ≤ s.next_index then
      (none, s)
    else
      let next_action := s.normalised_actions.getD s.next_index
        { «at» := 0, norm_pos := 0 }
      (some next_action,
        { s with
          next_index := s.next_index + 1
          next_tick_at := some next_action.«at» })

end FunscriptPlaystate

/-! ## Funscript schema and normalisation

From `strokers_funscript/src/schema.rs` and `processing.rs`.
-/

/-- One raw datapoint (`FunscriptAction`): `u32` timestamp and `u32`
position. -/
structure FunscriptAction where
  «at» : ℕ
  pos : ℕ
deriving DecidableEq

/-- The parsed `Funscript` document (the fields the core interprets:
`actions`, `inverted`, `range`). -/
structure Funscript where
  actions : List FunscriptAction
  inverted : Bool
  range : ℕ
deriving DecidableEq

/-- `Funscript::fixup`: if `range` is unset (zero), set it to the maximum
`pos` in the file (defaulting to 100 for an empty file) or 100, whichever
is larger. -/
def Funscript.fixup (f : Funscript) : Funscript :=
  if f.range = 0 then
    { f with
      range :=
        Nat.max (((f.actions.map (fun a => a.pos)).max?).getD 100) 100 }
  else f

/-- `normalised_from_funscript`: convert raw actions to normalised ones.
The position is divided by `100.0` (the declared `range` is not
consulted) and flipped when `inverted` is set. -/
def normalised_from_funscript (funscript : Funscript) :
    List NormalisedAction :=
  funscript.actions.map fun action =>
    { «at» := action.«at»
      norm_pos :=
        if funscript.inverted then 1 - (action.pos : ℚ) / 100
        else (action.pos : ℚ) / 100 }

/-! ## Movement construction

From `strokers_core/src/lib.rs`. The `target` is an `f32`; since its
construction checks involve non-finite values, `f32` is modelled here as
a rational number or one of the non-finite IEEE-754 values, with IEEE
comparison semantics (`NaN` compares false with everything).
-/

/-- A model of an `f32` value: a finite rational, or `NaN`/`±∞`. -/
inductive FVal where
  | finite (q : ℚ)
  | nan
  | posInf
  | negInf
deriving DecidableEq

/-- IEEE-754 `<=` on modelled `f32` values: `NaN` compares false with
everything; `-∞ ≤ x ≤ +∞` otherwise. -/
def FVal.fle : FVal → FVal → Bool
  | .nan, _ => false
  | _, .nan => false
  | .negInf, _ => true
  | _, .negInf => false
  | .finite p, .finite q => decide (p ≤ q)
  | .finite _, .posInf => true
  | .posInf, .posInf => true
  | .posInf, .finite _ => false

/-- `f32::is_finite`. -/
def FVal.isFinite : FVal → Bool
  | .finite _ => true
  | _ => false

/-- The `Movement` struct: axis id (`u32`), target position (`f32`) and
ramp time in milliseconds (`u32`). -/
structure Movement where
  axis : ℕ
  target : FVal
  ramp_time_milliseconds : ℕ
deriving DecidableEq

/-- `MAX_RAMP_TIME_MS` from `Movement::new`. -/
def MAX_RAMP_TIME_MS : ℕ := 9999999

/-- `Movement::new`: reject a target outside `[0, 1]` (per IEEE
comparisons, via `(0.0..=1.0).contains`), a non-finite target, or a ramp
time above `MAX_RAMP_TIME_MS`; otherwise store the inputs unchanged. -/
def Movement.new (axis : ℕ) (target : FVal)
    (ramp_time_milliseconds : ℕ) : Option Movement :=
  if ¬(FVal.fle (.finite 0) target && FVal.fle target (.finite 1)) then
    none
  else if ¬target.isFinite then
    none
  else if MAX_RAMP_TIME_MS < ramp_time_milliseconds then
    none
  else
    some { axis := axis
           target := target
           ramp_time_milliseconds := ramp_time_milliseconds }

/-! ## T-Code command encoding

From `strokers_device_tcode/src/tcode.rs`.
-/

/-- The parsed `D2` response line for one axis (`DiscoveredAxisInfo`). -/
structure DiscoveredAxisInfo where
  tcode_axis_name : String
  preferred_min : ℕ
  preferred_max : ℕ
  identified_name : String
deriving DecidableEq

/-- Multiplication of a modelled `f32` by the literal `10000.0`. -/
def FVal.mul10000 : FVal → FVal
  | .finite q => .finite (q * 10000)
  | .nan => .nan
  | .posInf => .posInf
  | .negInf => .negInf

/-- Rust's saturating `as u16` cast of an `f32`: truncate toward zero,
saturate at `0` and `65535`, map `NaN` to `0`. -/
def FVal.asU16 : FVal → ℕ
  | .finite q => Nat.min (Int.toNat ⌊q⌋) 65535
  | .nan => 0
  | .posInf => 65535
  | .negInf => 0

/-- Rust's `{:04}` formatting: decimal digits, zero-padded on the left to
a width of at least 4. -/
def fmtZeroPad4 (n : ℕ) : String :=
  let s := Nat.repr n
  String.mk (List.replicate (4 - s.length) '0') ++ s

/-- `movement_to_tcode`: look up the wire axis name of the movement's
axis id; fail if absent. The source also `assert!`s that the target is
nonnegative (modelled as an error branch); the target becomes
`min((target * 10000.0) as u16, 9999)`, rendered with the 4-digit
zero-padded format, then `I`, then the zero-padded ramp time. -/
def movement_to_tcode (axis_map : List (ℕ × DiscoveredAxisInfo))
    (movement : Movement) : Except String String :=
  match axis_map.lookup movement.axis with
  | none => .error "no such axis"
  | some info =>
    if ¬FVal.fle (.finite 0) movement.target then
      .error "assertion failed"
    else
      let target_int := Nat.min (movement.target.mul10000.asU16) 9999
      let ramp_int := movement.ramp_time_milliseconds
      .ok (info.tcode_axis_name ++ fmtZeroPad4 target_int ++ "I" ++
        fmtZeroPad4 ramp_int)

/-! ## Axis limit updates

From `strokers_for_mpv/src/playthread.rs`, `fn update_limits` and its
inner `fn update_axis`. The Rust function mutates `limits.min` in place
and then `limits.max`; the embedding threads the limiter state through
explicitly and also returns it when an error occurs, so that partial
mutation is observable.
-/

/-- The `AxisLimitChangeCommand` payload (the axis kind selector is
resolved by the caller and omitted here). -/
structure AxisLimitChangeCommand where
  min_by : Option ℚ
  min_new : Option ℚ
  max_by : Option ℚ
  max_new : Option ℚ
deriving DecidableEq

/-- Rust `f32::clamp(0.0, 1.0)` over the rational model. -/
def clamp01 (x : ℚ) : ℚ :=
  if x < 0 then 0 else if 1 < x then 1 else x

/-- The inner `update_axis`: relative (`by`) and absolute (`new`) updates
are mutually exclusive; a relative update is clamped to `[0, 1]`; an
absolute update outside `[0, 1]` is rejected. Returns the new value of the
bound, or an error. -/
def update_axis (by_ new_ : Option ℚ) (target : ℚ) : Except String ℚ :=
  match by_, new_ with
  | some _, some _ => .error "Conflicting axis_limit parameters"
  | some b, none => .ok (clamp01 (target + b))
  | none, some n =>
    if n < 0 ∨ 1 < n then .error "limit out of range" else .ok n
  | none, none => .ok target

/-- `update_limits`: apply the min update, then the max update. The
second component is the limiter state as left behind by the call — note
the min mutation persists even when the subsequent max update fails. -/
def update_limits (cmd : AxisLimitChangeCommand) (limits : AxisLimiter) :
    Except String Unit × AxisLimiter :=
  match update_axis cmd.min_by cmd.min_new limits.min with
  | .error e => (.error e, limits)
  | .ok newMin =>
    let limits1 := { limits with min := newMin }
    match update_axis cmd.max_by cmd.max_new limits1.max with
    | .error e => (.error e, limits1)
    | .ok newMax => (.ok (), { limits1 with max := newMax })

/-! ## Per-axis coordinator steps

From `strokers_for_mpv/src/playstate.rs`, `impl AxisPlaystate`, and the
event dispatch in `strokers_for_mpv/src/playthread.rs`, `fn playtask`.
A dispatched device command is modelled as the `(target, duration)` pair
passed to `Movement::new`; `now` is the `Instant` sampled by the handler.
-/

/-- The `AxisPlaystate` struct: one tracker plus one limiter. -/
structure AxisPlaystate where
  funscript : FunscriptPlaystate
  limiter : AxisLimiter
deriving DecidableEq

namespace AxisPlaystate

/-- `AxisPlaystate::tick` (the Time-change per-axis step): run the
tracker; drop a returned action whose own timestamp precedes `now`
without touching the limiter or the device; otherwise clamp, commit and
dispatch. Returns the new state and the dispatched command, if any. -/
def tick (s : AxisPlaystate) (now_millis : ℕ) (now : ℚ) :
    AxisPlaystate × Option (ℚ × ℕ) :=
  match s.funscript.tick now_millis with
  | (none, fs) => ({ s with funscript := fs }, none)
  | (some action, fs) =>
    if action.«at» < now_millis then
      ({ s with funscript := fs }, none)
    else
      let cmd := s.limiter.limit_command now action.norm_pos
        (wrapSub action.«at» now_millis)
      let limiter := s.limiter.notify_commanded now cmd.1 cmd.2
      ({ funscript := fs, limiter := limiter }, some cmd)

/-- `AxisPlaystate::seek` (the Seek per-axis step): seek the tracker,
then run one tick; a returned action is always dispatched, with a fixed
1000 ms ramp while paused and the action's remaining time otherwise (a
wrapping `u32` subtraction `action.at - now_millis`). -/
def seekStep (s : AxisPlaystate) (now_millis : ℕ) (paused : Bool)
    (now : ℚ) : AxisPlaystate × Option (ℚ × ℕ) :=
  let fs0 := s.funscript.seek now_millis
  match fs0.tick now_millis with
  | (none, fs) => ({ s with funscript := fs }, none)
  | (some action, fs) =>
    let orig_target_duration :=
      if paused then 1000 else wrapSub action.«at» now_millis
    let cmd := s.limiter.limit_command now action.norm_pos
      orig_target_duration
    let limiter := s.limiter.notify_commanded now cmd.1 cmd.2
    ({ funscript := fs, limiter := limiter }, some cmd)

end AxisPlaystate

/-- The `PlaythreadMessage::TimeChange` arm of `playtask`: while paused
the event is skipped outright (`continue`); otherwise every live axis is
ticked in order. Returns the updated axis states and the dispatched
commands. -/
def handleTimeChange (paused : Bool) (axes : List AxisPlaystate)
    (now_millis : ℕ) (now : ℚ) :
    List AxisPlaystate × List (Option (ℚ × ℕ)) :=
  if paused then
    (axes, [])
  else
    let stepped := axes.map fun s => s.tick now_millis now
    (stepped.map Prod.fst, stepped.map Prod.snd)

/-- The axis map used by the source's own `test_movement_to_tcode` unit
test: `AxisId(1)` maps to wire axis `L0 0 9999 Up`. -/
def testAxisMap : List (ℕ × DiscoveredAxisInfo) :=
  [(1, ⟨"L0", 0, 9999, "Up"⟩)]

/-! ## Supporting lemmas -/

/-- Every limiter produced by `AxisLimiter.new` has its start time equal
to (hence at most) its target time. -/
lemma new_start_le_target_time (sl mn mx now : ℚ) :
    (AxisLimiter.new sl mn mx now).last_command_start_time ≤
      (AxisLimiter.new sl mn mx now).last_command_target_time :=
  le_refl _

/-- `notify_commanded` preserves the invariant that the last command's
start time does not exceed its target time. -/
lemma notify_commanded_start_le_target_time (l : AxisLimiter)
    (now target : ℚ) (d : ℕ) :
    (l.notify_commanded now target d).last_command_start_time ≤
      (l.notify_commanded now target d).last_command_target_time := by
  simp only [AxisLimiter.notify_commanded]
  have : (0 : ℚ) ≤ (d : ℚ) / 1000 := by positivity
  linarith

/-- A list sorted by `≤` is monotone in its (defaulted) indexing. -/
lemma sorted_getD_mono (l : List ℕ) (h : List.Sorted (· ≤ ·) l)
    (i j : ℕ) (hij : i ≤ j) (hj : j < l.length) :
    l.getD i 0 ≤ l.getD j 0 := by
  have hi : i < l.length := lt_of_le_of_lt hij hj
  rw [List.getD_eq_getElem l 0 hi, List.getD_eq_getElem l 0 hj]
  rcases lt_or_eq_of_le hij with hlt | rfl
  · exact List.pairwise_iff_get.mp h ⟨i, hi⟩ ⟨j, hj⟩ hlt
  · exact le_refl _

/-- Bracketing property of the Rust binary-search loop on a list that is
monotone in its indexing: with enough fuel, the resulting index `c` (of
either a hit or the insertion point) lies in `[left, right]`, everything
in `[left, c)` is `≤ key`, and everything in `[c, right)` is `≥ key`. -/
lemma rustBinarySearchGo_bracket (key : ℕ) (ats : List ℕ)
    (hs : ∀ i j, i ≤ j → j < ats.length → ats.getD i 0 ≤ ats.getD j 0) :
    ∀ fuel left right, left ≤ right → right ≤ ats.length →
      right - left ≤ fuel →
      left ≤ bsIndex (rustBinarySearchGo key ats fuel left right) ∧
      bsIndex (rustBinarySearchGo key ats fuel left right) ≤ right ∧
      (∀ i, left ≤ i → i < bsIndex (rustBinarySearchGo key ats fuel left right) →
        ats.getD i 0 ≤ key) ∧
      (∀ i, bsIndex (rustBinarySearchGo key ats fuel left right) ≤ i →
        i < right → key ≤ ats.getD i 0) := by
  intro fuel
  induction fuel with
  | zero =>
    intro left right h1 h2 h3
    have hlr : right = left := by omega
    subst hlr
    simp only [rustBinarySearchGo, bsIndex]
    exact ⟨le_refl _, le_refl _, fun i hi1 hi2 => by omega,
      fun i hi1 hi2 => by omega⟩
  | succ n ih =>
    intro left right h1 h2 h3
    simp only [rustBinarySearchGo]
    by_cases hlr : left < right
    · simp only [if_pos hlr]
      have hmidlt : left + (right - left) / 2 < right := by omega
      by_cases hless : ats.getD (left + (right - left) / 2) 0 < key
      · simp only [if_pos hless]
        obtain ⟨c1, c2, c3, c4⟩ :=
          ih (left + (right - left) / 2 + 1) right (by omega) h2 (by omega)
        refine ⟨by omega, c2, ?_, c4⟩
        intro i hi1 hi2
        by_cases himid : i ≤ left + (right - left) / 2
        · exact le_trans (hs i (left + (right - left) / 2) himid (by omega))
            (le_of_lt hless)
        · exact c3 i (by omega) hi2
      · by_cases hgreat : key < ats.getD (left + (right - left) / 2) 0
        · simp only [if_neg hless, if_pos hgreat]
          obtain ⟨c1, c2, c3, c4⟩ :=
            ih left (left + (right - left) / 2) (by omega) (by omega)
              (by omega)
          refine ⟨c1, by omega, c3, ?_⟩
          intro i hi1 hi2
          by_cases himid : i < left + (right - left) / 2
          · exact c4 i hi1 himid
          · exact le_trans (le_of_lt hgreat)
              (hs (left + (right - left) / 2) i (by omega) (by omega))
        · have heq : ats.getD (left + (right - left) / 2) 0 = key := by omega
          simp only [if_neg hless, if_neg hgreat, bsIndex]
          refine ⟨by omega, by omega, ?_, ?_⟩
          · intro i hi1 hi2
            exact heq ▸ hs i (left + (right - left) / 2) (by omega) (by omega)
          · intro i hi1 hi2
            exact heq ▸ hs (left + (right - left) / 2) i hi1 (by omega)
    · simp only [if_neg hlr, bsIndex]
      have hlr2 : right = left := by omega
      subst hlr2
      exact ⟨le_refl _, le_refl _, fun i hi1 hi2 => by omega,
        fun i hi1 hi2 => by omega⟩

/-- Bracketing property of the full binary search used by `seek`. -/
lemma rustBinarySearch_bracket (key : ℕ) (ats : List ℕ)
    (hsort : List.Sorted (· ≤ ·) ats) :
    bsIndex (rustBinarySearch key ats) ≤ ats.length ∧
    (∀ i, i < bsIndex (rustBinarySearch key ats) → ats.getD i 0 ≤ key) ∧
    (∀ i, bsIndex (rustBinarySearch key ats) ≤ i → i < ats.length →
      key ≤ ats.getD i 0) := by
  obtain ⟨c1, c2, c3, c4⟩ :=
    rustBinarySearchGo_bracket key ats (sorted_getD_mono ats hsort)
      ats.length 0 ats.length (Nat.zero_le _) (le_refl _) (by omega)
  exact ⟨c2, fun i hi => c3 i (Nat.zero_le _) hi, c4⟩

/-- Indexing the timestamp list is indexing the action list. -/
lemma ats_getD (s : FunscriptPlaystate) (i : ℕ)
    (hi : i < s.normalised_actions.length) :
    s.ats.getD i 0 =
      (s.normalised_actions.getD i { «at» := 0, norm_pos := 0 }).«at» := by
  have hi2 : i < s.ats.length := by
    simpa [FunscriptPlaystate.ats] using hi
  rw [List.getD_eq_getElem _ _ hi2, List.getD_eq_getElem _ _ hi]
  simp [FunscriptPlaystate.ats]

/-- In the clamped branch of `limit_command`, the scaled delta moved over
the flooring-at-1ms duration never exceeds the speed limit. -/
lemma scaled_delta_speed_le (delta sl T : ℚ) (hT : 0 < T) (hsl : 0 ≤ sl) :
    |delta * (sl / (|delta| / T))| / T ≤ sl := by
  rcases eq_or_ne delta 0 with rfl | hne
  · simpa using hsl
  · have habs : 0 < |delta| := abs_pos.mpr hne
    have hsp : 0 < |delta| / T := div_pos habs hT
    rw [abs_mul, abs_of_nonneg (div_nonneg hsl (le_of_lt hsp)),
      div_le_iff₀ hT, div_div_eq_mul_div]
    have hkey : |delta| * (sl * T / |delta|) = sl * T := by
      field_simp
    rw [hkey]

/-! ## Claims -/

/-- C1: for every limiter state with a nonnegative configured speed limit
and every input `(now, raw_target, duration)`, the implied speed of the
returned target — the absolute difference between the returned target
and the estimated current position, divided by the duration (floored at
1 ms as in the source's implied-speed computation, which coincides with
the plain duration whenever it is at least 1 ms) — never exceeds the
configured speed limit, and the returned duration equals the input
duration in both the pass-through and the clamped branch, including
`duration = 0`. -/
theorem c1_limit_command_speed_safe (l : AxisLimiter) (now target : ℚ)
    (d : ℕ) (hsl : 0 ≤ l.speed_limit) :
    |(l.limit_command now target d).1 - l.estimate_current_position now| /
        ((Nat.max d 1 : ℚ) / 1000) ≤ l.speed_limit ∧
    (1 ≤ d →
      |(l.limit_command now target d).1 -
          l.estimate_current_position now| / ((d : ℚ) / 1000) ≤
        l.speed_limit) ∧
    (l.limit_command now target d).2 = d := by
  have hd1 : (1 : ℚ) ≤ (Nat.max d 1 : ℚ) := by
    exact_mod_cast Nat.le_max_right d 1
  have hT : (0 : ℚ) < (Nat.max d 1 : ℚ) * (1 / 1000) := by nlinarith
  have hmain :
      |(l.limit_command now target d).1 -
          l.estimate_current_position now| /
        ((Nat.max d 1 : ℚ) * (1 / 1000)) ≤ l.speed_limit ∧
      (l.limit_command now target d).2 = d := by
    by_cases hc :
        |l.min + (l.max - l.min) * target -
            l.estimate_current_position now| /
          ((Nat.max d 1 : ℚ) * (1 / 1000)) < l.speed_limit
    · simp only [AxisLimiter.limit_command, if_pos hc]
      exact ⟨le_of_lt hc, trivial⟩
    · simp only [AxisLimiter.limit_command, if_neg hc]
      refine ⟨?_, trivial⟩
      have := scaled_delta_speed_le
        (l.min + (l.max - l.min) * target -
          l.estimate_current_position now) l.speed_limit
        ((Nat.max d 1 : ℚ) * (1 / 1000)) hT hsl
      calc |l.estimate_current_position now +
              (l.min + (l.max - l.min) * target -
                  l.estimate_current_position now) *
                (l.speed_limit /
                  (|l.min + (l.max - l.min) * target -
                      l.estimate_current_position now| /
                    ((Nat.max d 1 : ℚ) * (1 / 1000)))) -
              l.estimate_current_position now| /
            ((Nat.max d 1 : ℚ) * (1 / 1000))
          = |(l.min + (l.max - l.min) * target -
                l.estimate_current_position now) *
              (l.speed_limit /
                (|l.min + (l.max - l.min) * target -
                    l.estimate_current_position now| /
                  ((Nat.max d 1 : ℚ) * (1 / 1000))))| /
            ((Nat.max d 1 : ℚ) * (1 / 1000)) := by ring_nf
        _ ≤ l.speed_limit := this
  rw [mul_one_div] at hmain
  refine ⟨hmain.1, ?_, hmain.2⟩
  intro hd
  have hmax : Nat.max d 1 = d := Nat.max_eq_left hd
  have h1 := hmain.1
  rw [hmax] at h1
  exact h1

/-- C1 witness: a concrete clamped call — delta 1 over 100 ms against
speed limit 1 — satisfies the speed bound with the duration preserved. -/
theorem c1_witness :
    |(AxisLimiter.limit_command ⟨1, 0, 0, 0, 0, 0, 1⟩ 0 1 100).1 -
        AxisLimiter.estimate_current_position ⟨1, 0, 0, 0, 0, 0, 1⟩ 0| /
        ((Nat.max 100 1 : ℚ) / 1000) ≤ (1 : ℚ) ∧
    (1 ≤ 100 →
      |(AxisLimiter.limit_command ⟨1, 0, 0, 0, 0, 0, 1⟩ 0 1 100).1 -
          AxisLimiter.estimate_current_position
            ⟨1, 0, 0, 0, 0, 0, 1⟩ 0| / ((100 : ℚ) / 1000) ≤ (1 : ℚ)) ∧
    (AxisLimiter.limit_command ⟨1, 0, 0, 0, 0, 0, 1⟩ 0 1 100).2 = 100 :=
  c1_limit_command_speed_safe ⟨1, 0, 0, 0, 0, 0, 1⟩ 0 1 100 (by norm_num)

/-- C2 counterexample: the request `min_by = 0.1, max_new = 1.5` against
limits `min = 0.45, max = 1` is rejected (the absolute max is out of
range), yet the limiter's min has been changed to `0.55`: the update is
not atomic, so the claim's "min and max are both left exactly as they
were" is false. -/
theorem c2_counterexample :
    (update_limits ⟨some (1/10), none, none, some (3/2)⟩
        ⟨1, 0, 0, 0, 0, 9/20, 1⟩).1 = .error "limit out of range" ∧
    (update_limits ⟨some (1/10), none, none, some (3/2)⟩
        ⟨1, 0, 0, 0, 0, 9/20, 1⟩).2.min ≠ (9/20 : ℚ) := by
  norm_num [update_limits, update_axis, clamp01]

/-- C2 amended: whenever `update_limits` rejects a request, it returns an
error and the max is left unchanged; if the min update itself was the one
that failed, both bounds are left unchanged; but if the min update
succeeded and only the max update failed, the already-applied min change
persists (the update is not atomic across the two bounds). -/
theorem c2_update_limits_error_behaviour (cmd : AxisLimitChangeCommand)
    (l : AxisLimiter) :
    (∀ e, (update_limits cmd l).1 = .error e →
      (update_limits cmd l).2.max = l.max) ∧
    (∀ e, update_axis cmd.min_by cmd.min_new l.min = .error e →
      update_limits cmd l = (.error e, l)) ∧
    (∀ v e, update_axis cmd.min_by cmd.min_new l.min = .ok v →
      update_axis cmd.max_by cmd.max_new l.max = .error e →
      update_limits cmd l = (.error e, { l with min := v })) := by
  refine ⟨?_, ?_, ?_⟩
  · intro e he
    unfold update_limits at he ⊢
    rcases hmin : update_axis cmd.min_by cmd.min_new l.min with e1 | v1
    · simp [hmin]
    · rcases hmax : update_axis cmd.max_by cmd.max_new l.max with e2 | v2
      · simp [hmin, hmax]
      · simp [hmin, hmax] at he
  · intro e he
    unfold update_limits
    simp [he]
  · intro v e hv he
    unfold update_limits
    simp [hv, he]

/-- C2 witness: with `min_by = 0.1, max_new = 1.5` against
`min = 0.45, max = 1`, the min update succeeds (yielding `0.55`) and the
max update fails, so the call returns the error with the min already
changed. -/
theorem c2_witness :
    update_limits ⟨some (1/10), none, none, some (3/2)⟩
        ⟨1, 0, 0, 0, 0, 9/20, 1⟩ =
      (.error "limit out of range",
        { (⟨1, 0, 0, 0, 0, 9/20, 1⟩ : AxisLimiter) with min := 11/20 }) :=
  (c2_update_limits_error_behaviour ⟨some (1/10), none, none, some (3/2)⟩
      ⟨1, 0, 0, 0, 0, 9/20, 1⟩).2.2 (11/20) "limit out of range"
    (by norm_num [update_axis, clamp01]) (by norm_num [update_axis])

/-- C3 counterexample: on the sorted list with timestamps `[5, 5, 5]`,
`seek(4)` must (per the claim) place the cursor at the first action with
timestamp ≥ 5, i.e. index 0, but the Rust binary search lands on the
middle duplicate, index 1. -/
theorem c3_counterexample :
    (FunscriptPlaystate.seek
        ⟨[⟨5, 0⟩, ⟨5, 0⟩, ⟨5, 0⟩], 0, some 0⟩ 4).next_index ≠
      List.findIdx (fun a => 5 ≤ a.«at»)
        [(⟨5, 0⟩ : NormalisedAction), ⟨5, 0⟩, ⟨5, 0⟩] := by
  decide

/-- C3 amended: for a sorted action list and `now + 1 < 2^32`, `seek(now)`
sets the pending due time to `now` and places the cursor at an index `c`
within bounds such that every action strictly before `c` has timestamp
≤ `now + 1` and every action at or after `c` has timestamp ≥ `now + 1`
— when several actions share the timestamp `now + 1` the binary search
may land on any of them, not necessarily the first (and at
`now = u32::MAX` the search key wraps to 0). -/
theorem c3_seek_cursor (s : FunscriptPlaystate) (now : ℕ)
    (hsort : List.Sorted (· ≤ ·) s.ats) (hnow : now + 1 < u32Mod) :
    (s.seek now).next_tick_at = some now ∧
    (s.seek now).next_index ≤ s.normalised_actions.length ∧
    (∀ i, i < (s.seek now).next_index → s.ats.getD i 0 ≤ now + 1) ∧
    (∀ i, (s.seek now).next_index ≤ i →
      i < s.normalised_actions.length → now + 1 ≤ s.ats.getD i 0) := by
  have hmod : (now + 1) % u32Mod = now + 1 := Nat.mod_eq_of_lt hnow
  have hlen : s.ats.length = s.normalised_actions.length := by
    simp [FunscriptPlaystate.ats]
  obtain ⟨b1, b2, b3⟩ := rustBinarySearch_bracket (now + 1) s.ats hsort
  refine ⟨rfl, ?_, ?_, ?_⟩
  · simpa [FunscriptPlaystate.seek, hmod, hlen] using b1
  · intro i hi
    simp only [FunscriptPlaystate.seek, hmod] at hi
    exact b2 i hi
  · intro i hi1 hi2
    simp only [FunscriptPlaystate.seek, hmod] at hi1
    exact b3 i hi1 (by omega)

/-- C3 witness: seeking to `now = 2` on the single-action list with
timestamp 5 relocates the cursor within bounds with the bracketing
property around the key 3. -/
theorem c3_witness :
    (FunscriptPlaystate.seek ⟨[⟨5, 0⟩], 0, some 0⟩ 2).next_tick_at =
        some 2 ∧
    (FunscriptPlaystate.seek ⟨[⟨5, 0⟩], 0, some 0⟩ 2).next_index ≤
      (FunscriptPlaystate.mk [⟨5, 0⟩] 0 (some 0)).normalised_actions.length ∧
    (∀ i, i < (FunscriptPlaystate.seek ⟨[⟨5, 0⟩], 0, some 0⟩ 2).next_index →
      (FunscriptPlaystate.mk [⟨5, 0⟩] 0 (some 0)).ats.getD i 0 ≤ 2 + 1) ∧
    (∀ i, (FunscriptPlaystate.seek ⟨[⟨5, 0⟩], 0, some 0⟩ 2).next_index ≤ i →
      i < (FunscriptPlaystate.mk [⟨5, 0⟩] 0
        (some 0)).normalised_actions.length →
      2 + 1 ≤ (FunscriptPlaystate.mk [⟨5, 0⟩] 0 (some 0)).ats.getD i 0) :=
  c3_seek_cursor ⟨[⟨5, 0⟩], 0, some 0⟩ 2
    (by simp [FunscriptPlaystate.ats]) (by decide)

/-- C4 counterexample: after a zero-duration command the stored start and
target times coincide; at `now` exactly equal to that shared instant
(hence "at the target time"), `estimate_current_position` returns the
stored start position `0.2`, not the target position `0.8` the claim
requires. -/
theorem c4_counterexample :
    (⟨1, 5, 1/5, 5, 4/5, 0, 1⟩ : AxisLimiter).last_command_target_time ≤
        (5 : ℚ) ∧
    AxisLimiter.estimate_current_position
        ⟨1, 5, 1/5, 5, 4/5, 0, 1⟩ 5 ≠
      (⟨1, 5, 1/5, 5, 4/5, 0, 1⟩ : AxisLimiter).last_command_target := by
  norm_num [AxisLimiter.estimate_current_position]

/-- C4 amended: for every limiter whose last command has its start time
at most its target time (the invariant maintained by `new` and
`notify_commanded`), the estimate is the last target position whenever
`now` is strictly past the target time, and also at `now` equal to the
target time provided the start time strictly precedes it; it is the
elapsed-fraction interpolation whenever `now` is strictly between start
and target time; and it is the last start position whenever `now` is at
or before the start time — in particular when the start and target times
coincide and `now` equals them, the start position is returned, not the
target. -/
theorem c4_estimate_current_position_cases (l : AxisLimiter) (now : ℚ)
    (hst : l.last_command_start_time ≤ l.last_command_target_time) :
    (l.last_command_target_time < now →
      l.estimate_current_position now = l.last_command_target) ∧
    (now = l.last_command_target_time →
      l.last_command_start_time < l.last_command_target_time →
      l.estimate_current_position now = l.last_command_target) ∧
    (l.last_command_start_time < now →
      now < l.last_command_target_time →
      l.estimate_current_position now =
        l.last_command_start +
          (l.last_command_target - l.last_command_start) *
            ((now - l.last_command_start_time) /
              (l.last_command_target_time - l.last_command_start_time))) ∧
    (now ≤ l.last_command_start_time →
      l.estimate_current_position now = l.last_command_start) := by
  refine ⟨?_, ?_, ?_, ?_⟩
  · intro h
    simp [AxisLimiter.estimate_current_position, if_pos h]
  · intro h hlt
    subst h
    have h1 : ¬ l.last_command_target_time < l.last_command_target_time :=
      lt_irrefl _
    simp only [AxisLimiter.estimate_current_position, if_neg h1,
      if_pos hlt]
    have hne : l.last_command_target_time - l.last_command_start_time ≠ 0 :=
      sub_ne_zero.mpr (ne_of_gt hlt)
    field_simp
  · intro h1 h2
    simp [AxisLimiter.estimate_current_position, if_neg (not_lt.mpr
      (le_of_lt h2)), if_pos h1]
  · intro h
    have h1 : ¬ l.last_command_target_time < now := by
      intro hcon
      exact absurd (lt_of_le_of_lt hst hcon) (not_lt.mpr h)
    have h2 : ¬ l.last_command_start_time < now := not_lt.mpr h
    simp [AxisLimiter.estimate_current_position, if_neg h1, if_neg h2]

/-- C4 witness: the limiter that last commanded a move from position 0 at
time 0 to position 1 at time 1, probed via the amended case split. -/
theorem c4_witness :
    ((⟨1, 0, 0, 1, 1, 0, 1⟩ : AxisLimiter).last_command_target_time <
        (2 : ℚ) →
      AxisLimiter.estimate_current_position ⟨1, 0, 0, 1, 1, 0, 1⟩ 2 =
        (⟨1, 0, 0, 1, 1, 0, 1⟩ : AxisLimiter).last_command_target) ∧
    ((2 : ℚ) = (⟨1, 0, 0, 1, 1, 0, 1⟩ : AxisLimiter).last_command_target_time →
      (⟨1, 0, 0, 1, 1, 0, 1⟩ : AxisLimiter).last_command_start_time <
        (⟨1, 0, 0, 1, 1, 0, 1⟩ : AxisLimiter).last_command_target_time →
      AxisLimiter.estimate_current_position ⟨1, 0, 0, 1, 1, 0, 1⟩ 2 =
        (⟨1, 0, 0, 1, 1, 0, 1⟩ : AxisLimiter).last_command_target) ∧
    ((⟨1, 0, 0, 1, 1, 0, 1⟩ : AxisLimiter).last_command_start_time <
        (2 : ℚ) →
      (2 : ℚ) < (⟨1, 0, 0, 1, 1, 0, 1⟩ : AxisLimiter).last_command_target_time →
      AxisLimiter.estimate_current_position ⟨1, 0, 0, 1, 1, 0, 1⟩ 2 =
        (⟨1, 0, 0, 1, 1, 0, 1⟩ : AxisLimiter).last_command_start +
          ((⟨1, 0, 0, 1, 1, 0, 1⟩ : AxisLimiter).last_command_target -
              (⟨1, 0, 0, 1, 1, 0, 1⟩ : AxisLimiter).last_command_start) *
            (((2 : ℚ) -
                (⟨1, 0, 0, 1, 1, 0, 1⟩ : AxisLimiter).last_command_start_time) /
              ((⟨1, 0, 0, 1, 1, 0, 1⟩ : AxisLimiter).last_command_target_time -
                (⟨1, 0, 0, 1, 1, 0, 1⟩ : AxisLimiter).last_command_start_time))) ∧
    ((2 : ℚ) ≤ (⟨1, 0, 0, 1, 1, 0, 1⟩ : AxisLimiter).last_command_start_time →
      AxisLimiter.estimate_current_position ⟨1, 0, 0, 1, 1, 0, 1⟩ 2 =
        (⟨1, 0, 0, 1, 1, 0, 1⟩ : AxisLimiter).last_command_start) :=
  c4_estimate_current_position_cases ⟨1, 0, 0, 1, 1, 0, 1⟩ 2 (by norm_num)

/-- C5: the claim is that every `NormalisedAction` produced by
`normalised_from_funscript` has `norm_pos` in `[0, 1]`, the conversion
accounting for the script's declared position scale. The code divides by
the constant `100.0` and never consults `range`: for the funscript with
a single action `pos = 200` and declared `range = 200` the produced
`norm_pos` is `2`, outside `[0, 1]` — even though `fixup` itself derives
`range = 200` as the scale of that same action list. This contradicts the
source's own doc comment ("These always go from 0.0 to 1.0"). -/
theorem c5_norm_pos_out_of_range :
    normalised_from_funscript ⟨[⟨0, 200⟩], false, 200⟩ =
        [{ «at» := 0, norm_pos := 2 }] ∧
    ¬ ((2 : ℚ) ≤ 1) ∧
    Funscript.fixup ⟨[⟨0, 200⟩], false, 0⟩ = ⟨[⟨0, 200⟩], false, 200⟩ := by
  refine ⟨?_, by norm_num, by decide⟩
  norm_num [normalised_from_funscript]

/-- C6: `Movement::new` fails exactly when the target is outside `[0, 1]`
under IEEE comparisons (which excludes every non-finite value: `NaN`
compares false, `±∞` lie outside) or the ramp time exceeds the protocol
maximum 9999999; every accepted movement stores the inputs unchanged. -/
theorem c6_movement_new_validation (axis : ℕ) (target : FVal) (ramp : ℕ) :
    (Movement.new axis target ramp = none ↔
      (¬(FVal.fle (.finite 0) target = true ∧
          FVal.fle target (.finite 1) = true) ∨
        target.isFinite = false ∨ MAX_RAMP_TIME_MS < ramp)) ∧
    (∀ m, Movement.new axis target ramp = some m →
      m.axis = axis ∧ m.target = target ∧
        m.ramp_time_milliseconds = ramp) := by
  unfold Movement.new
  by_cases h1 : (FVal.fle (.finite 0) target &&
      FVal.fle target (.finite 1)) = true
  · by_cases h2 : target.isFinite = true
    · by_cases h3 : MAX_RAMP_TIME_MS < ramp
      · rw [if_neg (not_not_intro h1), if_neg (not_not_intro h2),
          if_pos h3]
        constructor
        · simp only [eq_self_iff_true, true_iff]
          exact Or.inr (Or.inr h3)
        · intro m hm
          exact Option.noConfusion hm
      · rw [if_neg (not_not_intro h1), if_neg (not_not_intro h2),
          if_neg h3]
        constructor
        · simp only [reduceCtorEq, false_iff]
          intro hcon
          rcases hcon with hA | hB | hC
          · rw [Bool.and_eq_true] at h1
            exact hA h1
          · rw [h2] at hB
            exact Bool.noConfusion hB
          · exact h3 hC
        · intro m hm
          cases hm
          exact ⟨rfl, rfl, rfl⟩
    · rw [if_neg (not_not_intro h1), if_pos h2]
      constructor
      · simp only [eq_self_iff_true, true_iff]
        exact Or.inr (Or.inl (Bool.eq_false_iff.mpr h2))
      · intro m hm
        exact Option.noConfusion hm
  · rw [if_pos h1]
    constructor
    · simp only [eq_self_iff_true, true_iff]
      refine Or.inl (fun hc => h1 ?_)
      rw [Bool.and_eq_true]
      exact hc
    · intro m hm
      exact Option.noConfusion hm

/-- C6 witness: the movement to `NaN` fails (it is outside `[0, 1]` under
IEEE comparisons and non-finite), obtained through the validation
characterisation. -/
theorem c6_witness : Movement.new 0 FVal.nan 42 = none :=
  (c6_movement_new_validation 0 FVal.nan 42).1.mpr
    (Or.inr (Or.inl rfl))

/-- C7: `movement_to_tcode` fails exactly when the movement's axis id is
absent from the discovery map; for a present axis and a finite
nonnegative target `q`, it renders the axis's wire name, then
`min(floor(q * 10000), 9999)` zero-padded to 4 digits, then `I`, then
the ramp time zero-padded to at least 4 digits. On the source's own test
vector `target = 0.75, ramp = 42` over axis `L0` this yields
`"L07500I0042"`, and `target = 0.99995` truncates to `9999`
(`floor(9999.5) = 9999`), never rounding up to 10000. -/
theorem c7_movement_to_tcode (axis_map : List (ℕ × DiscoveredAxisInfo))
    (m : Movement) (info : DiscoveredAxisInfo) (q : ℚ) :
    (axis_map.lookup m.axis = none →
      movement_to_tcode axis_map m = .error "no such axis") ∧
    (axis_map.lookup m.axis = some info → m.target = .finite q →
      0 ≤ q →
      movement_to_tcode axis_map m =
        .ok (info.tcode_axis_name ++
          fmtZeroPad4 (Nat.min (Int.toNat ⌊q * 10000⌋) 9999) ++ "I" ++
          fmtZeroPad4 m.ramp_time_milliseconds)) ∧
    movement_to_tcode testAxisMap ⟨1, .finite (3/4), 42⟩ =
      .ok "L07500I0042" ∧
    movement_to_tcode testAxisMap ⟨1, .finite (19999/20000), 1⟩ =
      .ok "L09999I0001" ∧
    Nat.min (Int.toNat ⌊(19999 : ℚ)/20000 * 10000⌋) 9999 = 9999 := by
  refine ⟨?_, ?_, ?_, ?_, ?_⟩
  · intro hnone
    simp only [movement_to_tcode, hnone]
  · intro hsome htgt hq
    have hfle : FVal.fle (.finite 0) m.target = true := by
      rw [htgt]
      simpa [FVal.fle] using hq
    simp only [movement_to_tcode, hsome, hfle, not_true_eq_false,
      if_false]
    rw [htgt]
    simp only [FVal.mul10000, FVal.asU16]
    have hmm : ∀ n : ℕ, (Nat.min n 65535).min 9999 = Nat.min n 9999 := by
      intro n
      simp only [Nat.min_def]
      split_ifs <;> omega
    rw [hmm]
  · norm_num [movement_to_tcode, testAxisMap, FVal.fle, FVal.mul10000,
      FVal.asU16, fmtZeroPad4, List.lookup]
    rfl
  · norm_num [movement_to_tcode, testAxisMap, FVal.fle, FVal.mul10000,
      FVal.asU16, fmtZeroPad4, List.lookup]
    rfl
  · have hfl : ⌊(19999 : ℚ)/20000 * 10000⌋ = (9999 : ℤ) := by norm_num
    rw [hfl]
    rfl

/-- C7 witness: the general rendering equation applied to the source's
test vector: axis 1 is present in the test map as `L0`, the target is
the finite nonnegative rational `3/4`, and the rendered line follows. -/
theorem c7_witness :
    movement_to_tcode testAxisMap ⟨1, .finite (3/4), 42⟩ =
      .ok ("L0" ++
        fmtZeroPad4 (Nat.min (Int.toNat ⌊(3/4 : ℚ) * 10000⌋) 9999) ++
        "I" ++ fmtZeroPad4 42) :=
  (c7_movement_to_tcode testAxisMap ⟨1, .finite (3/4), 42⟩
      ⟨"L0", 0, 9999, "Up"⟩ (3/4)).2.1 rfl rfl (by norm_num)

/-- C8: if the tracker returns an action whose own timestamp is strictly
before `now`, the Time-change per-axis step drops it: no command is
dispatched and the limiter's last-motion state is not committed (only the
tracker's cursor/due-time bookkeeping advances); and a Time-change event
received while paused performs no per-axis processing at all. -/
theorem c8_stale_action_dropped (s : AxisPlaystate) (now_millis : ℕ)
    (now : ℚ) (a : NormalisedAction)
    (h1 : (s.funscript.tick now_millis).1 = some a)
    (h2 : a.«at» < now_millis) :
    (s.tick now_millis now).1.limiter = s.limiter ∧
    (s.tick now_millis now).2 = none ∧
    ∀ (axes : List AxisPlaystate) (nm : ℕ) (t : ℚ),
      handleTimeChange true axes nm t = (axes, []) := by
  rcases htk : s.funscript.tick now_millis with ⟨o, fs⟩
  rw [htk] at h1
  have ho : o = some a := h1
  subst ho
  refine ⟨?_, ?_, ?_⟩
  · simp [AxisPlaystate.tick, htk, if_pos h2]
  · simp [AxisPlaystate.tick, htk, if_pos h2]
  · intro axes nm t
    simp [handleTimeChange]

/-- C8 witness: a tracker whose single action is due at 0 ticked at
`now = 5` returns the stale action at 0, which the per-axis step drops
without committing the limiter or dispatching. -/
theorem c8_witness :
    (AxisPlaystate.tick
        ⟨⟨[⟨0, 0⟩], 0, some 0⟩, ⟨1, 0, 0, 0, 0, 0, 1⟩⟩ 5 0).1.limiter =
      (⟨⟨[⟨0, 0⟩], 0, some 0⟩, ⟨1, 0, 0, 0, 0, 0, 1⟩⟩ :
        AxisPlaystate).limiter ∧
    (AxisPlaystate.tick
        ⟨⟨[⟨0, 0⟩], 0, some 0⟩, ⟨1, 0, 0, 0, 0, 0, 1⟩⟩ 5 0).2 = none ∧
    ∀ (axes : List AxisPlaystate) (nm : ℕ) (t : ℚ),
      handleTimeChange true axes nm t = (axes, []) :=
  c8_stale_action_dropped
    ⟨⟨[⟨0, 0⟩], 0, some 0⟩, ⟨1, 0, 0, 0, 0, 0, 1⟩⟩ 5 0 ⟨0, 0⟩ rfl
    (by decide)

/-- C9: the claim is that `seek` never underflows. In fact, on the input
`seek(0)` against the action list with the single timestamp 10 (any list
whose timestamps all exceed `now` behaves the same), the binary search
relocates the cursor to index 0, so the debug-logging computation
`idx_1 = idx_new - 1` evaluates `0usize - 1`: an arithmetic underflow,
which panics under debug assertions (in release it wraps, and the
subsequent checked `get` merely returns `None`). -/
theorem c9_seek_debug_underflow :
    FunscriptPlaystate.seekDebugIndexUnderflows
      ⟨[⟨10, 0⟩], 0, some 0⟩ 0 ∧
    (FunscriptPlaystate.seek ⟨[⟨10, 0⟩], 0, some 0⟩ 0).next_index = 0 := by
  constructor
  · decide
  · decide

/-- C10 counterexample: at `now = u32::MAX = 4294967295` the search key
`now + 1` wraps to 0, so on the action list with the single timestamp 0
the seek relocates the cursor to the beginning and the immediately
following tick returns the action at timestamp 0, which is not strictly
greater than `now` — the subsequent `action.at - now_millis` duration
computation underflows rather than being safe. -/
theorem c10_counterexample :
    ((FunscriptPlaystate.seek
        ⟨[⟨0, 0⟩], 0, some 0⟩ 4294967295).tick 4294967295).1 =
      some ⟨0, 0⟩ ∧
    ¬ (4294967295 < (0 : ℕ)) := by
  constructor
  · decide
  · decide

/-- C10 amended: for every sorted action list with `u32` timestamps and
every `now` with `now + 1 < 2^32` (i.e. every `now` except `u32::MAX`,
where the key wraps), the tick immediately following `seek(now)`, when it
returns an action, returns one with timestamp strictly greater than `now`
(indeed ≥ `now + 1`), so the Seek handler's ramp-duration computation
`action.at - now_millis` equals the true difference and does not
underflow. -/
theorem c10_seek_then_tick_fresh (s : FunscriptPlaystate) (now : ℕ)
    (a : NormalisedAction)
    (hsort : List.Sorted (· ≤ ·) s.ats)
    (hbound : ∀ b ∈ s.normalised_actions, b.«at» < u32Mod)
    (hnow : now + 1 < u32Mod)
    (htick : ((s.seek now).tick now).1 = some a) :
    now < a.«at» ∧ wrapSub a.«at» now = a.«at» - now := by
  have hmod : (now + 1) % u32Mod = now + 1 := Nat.mod_eq_of_lt hnow
  obtain ⟨b1, b2, b3⟩ := rustBinarySearch_bracket (now + 1) s.ats hsort
  have hlen : s.ats.length = s.normalised_actions.length := by
    simp [FunscriptPlaystate.ats]
  by_cases hend : s.normalised_actions.length ≤
      bsIndex (rustBinarySearch (now + 1) s.ats)
  · exfalso
    simp [FunscriptPlaystate.seek, FunscriptPlaystate.tick, hmod,
      lt_irrefl, hend] at htick
  · have hc : bsIndex (rustBinarySearch (now + 1) s.ats) <
        s.normalised_actions.length := lt_of_not_le hend
    simp [FunscriptPlaystate.seek, FunscriptPlaystate.tick, hmod,
      lt_irrefl, hend] at htick
    have ha : a = s.normalised_actions.getD
        (bsIndex (rustBinarySearch (now + 1) s.ats))
        { «at» := 0, norm_pos := 0 } := by
      rw [List.getD_eq_getElem?_getD]
      exact htick.symm
    have hkey : now + 1 ≤ s.ats.getD
        (bsIndex (rustBinarySearch (now + 1) s.ats)) 0 :=
      b3 _ (le_refl _) (by omega)
    rw [ats_getD s _ hc, ← ha] at hkey
    have hat : now < a.«at» := by omega
    refine ⟨hat, ?_⟩
    have hmem : a ∈ s.normalised_actions := by
      rw [ha, List.getD_eq_getElem _ _ hc]
      exact List.getElem_mem hc
    have hau : a.«at» < u32Mod := hbound a hmem
    unfold wrapSub
    simp only [u32Mod] at hau hnow ⊢
    omega

/-- C10 witness: seeking to `now = 2` on the single-action list with
timestamp 5 and ticking returns the action at 5, strictly in the future,
and the `u32` duration subtraction equals the true difference 3. -/
theorem c10_witness :
    2 < (⟨5, 0⟩ : NormalisedAction).«at» ∧
    wrapSub (⟨5, 0⟩ : NormalisedAction).«at» 2 =
      (⟨5, 0⟩ : NormalisedAction).«at» - 2 :=
  c10_seek_then_tick_fresh ⟨[⟨5, 0⟩], 0, some 0⟩ 2 ⟨5, 0⟩
    (by simp [FunscriptPlaystate.ats]) (by decide) (by decide) (by decide)

end Strokers
